import Mathlib

/-!
Verification of the vesper-lib client library (transaction orchestration and
derived-value computation engine).

The definitions below are a shallow embedding of the JavaScript source:

* `src/src/pool-methods.js` — pool operations (deposit, withdraw, dust sweep,
  token value, interest earned, rebalance eligibility, claimable rewards,
  permit-signing proxy);
* `src/src/contracts.js` — per-network contract resolution;
* the unit converter (`toUnit` / `fromUnit`), whose implementation file is not
  part of the provided sources (only its unit test is), is modelled from the
  specification.

Monetary quantities cross boundaries as unsigned base-unit integers encoded as
decimal strings; the embedding represents them as `Nat` (or decimal `String`
where the string shape itself matters), fallible remote calls as
`Except String`, and JavaScript promise-rejection handlers as `Except`
branching.  Decimal arithmetic done with big.js at 20 decimal places of
precision is embedded as exact integer arithmetic (`Nat` division truncates);
the one comparison the source performs on a JavaScript `Number`
(`sweepDust`'s ratio test) is embedded as the exact rational comparison, which
agrees with the float comparison except for ratios within float epsilon of the
tolerance limit.
-/

namespace VesperLib

/-! ### Unit converter (modelled from the spec; `src/utils.js` is not in the sources) -/

/-- Numeric value of a digit character: distance from the code point of 0. -/
def digitVal (c : Char) : ℕ := c.toNat - 48

/-- Character for a digit value below 10. -/
def digitChar (d : ℕ) : Char := Char.ofNat (d + 48)

/-- Recognizes the characters 0 to 9. -/
def isDigitChar (c : Char) : Bool := decide (48 ≤ c.toNat) && decide (c.toNat ≤ 57)

/-- Value of a big-endian list of digit characters. -/
def charsToNat (l : List Char) : ℕ := Nat.ofDigits 10 (l.reverse.map digitVal)

/-- Little-endian base-10 digits of `n`, computed with explicit fuel so that the
recursion is structural and kernel-reducible; `natDigitsAux n n` agrees with
`Nat.digits 10 n`. -/
def natDigitsAux : ℕ → ℕ → List ℕ
  | _, 0 => []
  | 0, _ + 1 => []
  | fuel + 1, n + 1 => ((n + 1) % 10) :: natDigitsAux fuel ((n + 1) / 10)

/-- Big-endian digit characters of `n`; empty for `n = 0`. -/
def natDigitChars (n : ℕ) : List Char := (natDigitsAux n n).reverse.map digitChar

/-- Decimal string of a natural number (`"0"` for zero), as big.js `toFixed(0)`
prints an integer. -/
def natToString (n : ℕ) : String :=
  if n = 0 then "0" else String.mk (natDigitChars n)

/-- Splits a character list on the dot character; mirrors locating the decimal
point of a decimal string.  Never returns an empty list of parts. -/
def splitDot : List Char → List (List Char)
  | [] => [[]]
  | c :: rest =>
    if c = '.' then [] :: splitDot rest
    else
      match splitDot rest with
      | [] => [[c]]
      | h :: t => (c :: h) :: t

/-- Modelled from the spec: parsing of a non-negative decimal string (the input
validation of `toUnit` in the missing `src/utils.js`).  A valid input is
digits with at most one dot and at least one digit; the result is the pair of
the integer numerator and the count of fractional digits, so the represented
value is `numerator / 10 ^ fracLen`. -/
def parseDec (l : List Char) : Option (ℕ × ℕ) :=
  match splitDot l with
  | [i] =>
    if !i.isEmpty && i.all isDigitChar then some (charsToNat i, 0) else none
  | [i, f] =>
    if (!i.isEmpty || !f.isEmpty) && i.all isDigitChar && f.all isDigitChar then
      some (charsToNat i * 10 ^ f.length + charsToNat f, f.length)
    else none
  | _ => none

/-- Modelled from the spec: `toUnit` (`toBaseUnits`) of the missing
`src/utils.js` multiplies a decimal-string amount by `10 ^ decimals` and
truncates to an integer string, failing with `InvalidAmount` if the input is
not a valid non-negative decimal.  Matches the unit test
`toUnit("1.23", 8) = "123000000"`. -/
def toUnit (s : String) (decimals : ℕ) : Except String String :=
  match parseDec s.toList with
  | some (n, f) => .ok (natToString (n * 10 ^ decimals / 10 ^ f))
  | none => .error "InvalidAmount"

/-- Exactly `d` big-endian digit characters of `fp` (left-padded with zeros);
the fractional part of a base-unit amount rendered at `d` decimals.  Faithful
for `fp < 10 ^ d`, which division and remainder guarantee at the call site. -/
def fracDigitChars (fp : ℕ) : ℕ → List Char
  | 0 => []
  | d + 1 => fracDigitChars (fp / 10) d ++ [digitChar (fp % 10)]

/-- Drops trailing zero characters; big.js `toFixed()` prints no unnecessary
trailing zeros. -/
def stripTrailingZeros (l : List Char) : List Char :=
  (l.reverse.dropWhile (fun c => c == '0')).reverse

/-- Renders `n / 10 ^ d` as a decimal string with no unnecessary trailing
zeros, the output shape of `fromUnit`. -/
def renderDec (n d : ℕ) : String :=
  let ip := n / 10 ^ d
  let fracChars := stripTrailingZeros (fracDigitChars (n % 10 ^ d) d)
  if fracChars.isEmpty then natToString ip
  else natToString ip ++ "." ++ String.mk fracChars

/-- Modelled from the spec: `fromUnit` (`fromBaseUnits`) of the missing
`src/utils.js` divides a base-unit integer string by `10 ^ decimals` and
returns a decimal string with no unnecessary trailing zeros.  Matches the unit
test `fromUnit("123000000", 8) = "1.23"`. -/
def fromUnit (s : String) (decimals : ℕ) : Except String String :=
  let l := s.toList
  if !l.isEmpty && l.all isDigitChar then .ok (renderDec (charsToNat l) decimals)
  else .error "InvalidAmount"

/-- Canonical integer digit string: nonempty, all digits, and no leading zero
except for the single string `"0"`. -/
def canonicalIntChars (i : List Char) : Bool :=
  !i.isEmpty && i.all isDigitChar && (i == ['0'] || i.headD ' ' != '0')

/-- Canonical non-negative decimal string with at most `d` fractional digits:
a canonical integer part, optionally followed by a dot and a nonempty
fractional part with no trailing zero.  These are exactly the strings
`fromUnit` can output, restricted to `d` decimals. -/
def canonicalDec (x : String) (d : ℕ) : Bool :=
  match splitDot x.toList with
  | [i] => canonicalIntChars i
  | [i, f] =>
    canonicalIntChars i && !f.isEmpty && f.all isDigitChar &&
      f.getLastD ' ' != '0' && decide (f.length ≤ d)
  | _ => false

/-! ### Token value (`getTokenValue`, `src/src/pool-methods.js` lines 142-166) -/

/-- Embeds `getTokenValue`: if the pool's total supply is positive the value of
one pool token is `toUnit(Big(totalValue).div(totalSupply).toFixed())`, i.e.
the quotient scaled to 18-decimal pool-token precision (exact integer
arithmetic embeds the big.js 20-decimal-place intermediate); with zero supply
it is `toUnit("1", assetDecimals)`, one base unit of the deposit asset. -/
def getTokenValue (totalSupply totalValue assetDecimals : ℕ) : Except String String :=
  if 0 < totalSupply then .ok (natToString (totalValue * 10 ^ 18 / totalSupply))
  else toUnit "1" assetDecimals

/-! ### Withdraw dust sweep (`sweepDust` and `withdraw`, lines 1094-1135) -/

/-- Embeds `sweepDust`: if the token amount divided by the caller's full
balance exceeds the limit, the full balance replaces the amount.  The source
compares `Big(tokenAmount).div(balance).toNumber() > limit`; the embedding
compares the exact rational ratio, which agrees except for ratios within
float epsilon of the limit.  (With `balance = 0` the source throws inside
big.js; the rational division then yields zero and the amount is kept, a case
no claim depends on.) -/
def sweepDust (tokenAmount balance : ℕ) (limit : ℚ) : ℕ :=
  if limit < (tokenAmount : ℚ) / (balance : ℚ) then balance else tokenAmount

/-- Default dust tolerance limit of `sweepDust` (0.999). -/
def defaultDustLimit : ℚ := 999 / 1000

/-- Embeds the token-amount conversion of `withdraw`: the requested deposit
asset amount divided by the token value, scaled to 18-decimal pool-token
precision and truncated
(`toUnit(Big(amount).div(tokenValue).toFixed())`). -/
def withdrawTokenAmount (amount tokenValue : ℕ) : ℕ := amount * 10 ^ 18 / tokenValue

/-- Embeds the pool-token amount the single withdraw transaction sends:
`sweepDust(tokenAmount)` with the default limit, where `tokenAmount` is the
converted request and `balance` the caller's full pool-token balance. -/
def withdrawSentAmount (amount tokenValue balance : ℕ) : ℕ :=
  sweepDust (withdrawTokenAmount amount tokenValue) balance defaultDustLimit

/-! ### Deposit step list (`isApprovalNeeded` and `deposit`, lines 851-882 and 1016-1049) -/

/-- Method invocation descriptors used by the deposit step list. -/
inductive TxMethod where
  | approve (spender : String) (amount : ℕ)
  | depositToken (amount : ℕ)
  | depositEth
deriving DecidableEq

/-- Embeds a transaction step: method invocation, discriminator suffix,
expected gas, and optional attached native value. -/
structure TxStep where
  method : TxMethod
  suffix : String
  gas : ℕ
  value : Option ℕ
deriving DecidableEq

/-- The approval step `deposit` queues when the allowance is insufficient
(`expectedGasFor.approval = 66000`). -/
def approveStep (poolAddress : String) (amount : ℕ) : TxStep :=
  { method := .approve poolAddress amount, suffix := "approve", gas := 66000, value := none }

/-- The deposit step: `poolContract.methods.deposit(amount)` for an ERC-20
asset, or `deposit()` with the amount attached as native value for ETH
(`expectedGasFor.deposit = 155000`). -/
def depositStep (isToken : Bool) (amount : ℕ) : TxStep :=
  if isToken then
    { method := .depositToken amount, suffix := "deposit", gas := 155000, value := none }
  else
    { method := .depositEth, suffix := "deposit", gas := 155000, value := some amount }

/-- Embeds `isApprovalNeeded`: for an ERC-20 asset, the current allowance read
from the asset contract is strictly below the amount; for the native asset it
resolves to `false` without any read.  The allowance is passed in as the value
the on-chain read returned. -/
def isApprovalNeeded (isToken : Bool) (allowance amount : ℕ) : Bool :=
  isToken && decide (allowance < amount)

/-- Embeds the transaction list `deposit` builds: an approve step is pushed
first when `isApprovalNeeded` holds, then always exactly one deposit step. -/
def depositTxs (isToken : Bool) (poolAddress : String) (allowance amount : ℕ) : List TxStep :=
  (if isApprovalNeeded isToken allowance amount then [approveStep poolAddress amount] else [])
    ++ [depositStep isToken amount]

/-- Discriminates approve steps. -/
def isApproveStep (step : TxStep) : Bool :=
  match step.method with
  | .approve _ _ => true
  | _ => false

/-- Discriminates deposit steps (both the ERC-20 and the native variant). -/
def isDepositStep (step : TxStep) : Bool :=
  match step.method with
  | .depositToken _ => true
  | .depositEth => true
  | _ => false

/-! ### Permit-signing proxy (`createProxyMethodCall` and `signPermit`, lines 889-990) -/

/-- The r, s, v components split from a signed typed-data payload. -/
structure PermitSignature where
  r : String
  s : String
  v : ℕ
deriving DecidableEq

/-- The data `buildMethodCall` receives: the deadline fixed at proxy creation
and the signature in scope at call time (`none` embeds the initial empty
record `{}`). -/
structure ProxyCall where
  deadline : ℕ
  signature : Option PermitSignature
deriving DecidableEq

/-- Observable side effects of the proxy: a permit-signing request to the
external signer. -/
inductive ProxyAction where
  | permitSigned
deriving DecidableEq

/-- The closure state of `createProxyMethodCall`: the deadline computed once
at creation and the mutable `recordedSignature`. -/
structure ProxyState where
  deadline : ℕ
  recordedSignature : Option PermitSignature
deriving DecidableEq

/-- Embeds `createProxyMethodCall`: fixes the deadline at now (seconds) plus
900 (15 minutes) and starts with no recorded signature. -/
def createProxyMethodCall (nowSeconds : ℕ) : ProxyState :=
  { deadline := nowSeconds + 900, recordedSignature := none }

/-- Embeds the proxy's `estimateGas`: signs the permit (the fresh signature
the external signer returned is `signature`), records it, and builds the
method call with the fixed deadline and that signature.  Returns the updated
closure state, the built call, and the signing action performed. -/
def proxyEstimateGas (st : ProxyState) (signature : PermitSignature) :
    ProxyState × ProxyCall × List ProxyAction :=
  ({ st with recordedSignature := some signature },
    { deadline := st.deadline, signature := some signature },
    [ProxyAction.permitSigned])

/-- Embeds the proxy's `send`: rebuilds the method call from the recorded
signature and the same fixed deadline; performs no signing and leaves the
closure state untouched. -/
def proxySend (st : ProxyState) : ProxyState × ProxyCall × List ProxyAction :=
  (st, { deadline := st.deadline, signature := st.recordedSignature }, [])

/-! ### Interest earned (`getInterestEarned` and `getLegacyInterestEarned`, lines 300-326 and 388-435) -/

/-- Embeds the final normalization of the version-1 branch: a falsy (empty)
result is replaced by `"0"`. -/
def normalizeInterest (v : String) : String := if v = "" then "0" else v

/-- Embeds `getInterestEarned`.  For a version-1 pool: the primary query of
the active strategy's `interestEarned()`; on failure the legacy computation
(`getLegacyInterestEarned`: lending-position balance versus recorded debt
through the rate oracle); on further failure `"0"`; then falsy normalization.
For any other version: the strategies' total value minus the pool's total
debt, with no failure handling (`Promise.all` rejects with the first error).
The remote reads are passed in as the `Except` values their calls produced. -/
def getInterestEarned (version : ℕ) (primary legacy : Except String String)
    (strategiesTotalValue totalDebt : Except String ℤ) : Except String String :=
  if version = 1 then
    .ok (normalizeInterest
      (match primary with
        | .ok v => v
        | .error _ =>
          match legacy with
          | .ok v => v
          | .error _ => "0"))
  else
    match strategiesTotalValue with
    | .error e => .error e
    | .ok s =>
      match totalDebt with
      | .error e => .error e
      | .ok dbt => .ok (toString (s - dbt))

/-! ### Rebalance eligibility (`canRebalance`, lines 629-671) -/

/-- Resolved value of `canRebalance`: the JavaScript `false`, or the gas
estimate the successful estimation returned (truthy unless zero). -/
inductive RebalanceOutcome where
  | cannot
  | gas (estimate : ℕ)
deriving DecidableEq

/-- On-chain interactions `canRebalance` may perform, in order. -/
inductive RebalanceAction where
  | readTokensHere
  | estimateRebalanceGas
deriving DecidableEq

/-- Embeds `canRebalance`.  Version 1: read `tokensHere`; if zero resolve to
`false`; otherwise estimate gas for `rebalance()`, resolving to the estimate
on success and to `false` (the `.catch` branch) on failure.  Any other
version: resolve to `false` immediately.  The pair also returns the list of
interactions performed; the `Except` layer shows no branch rejects. -/
def canRebalance (version : ℕ) (tokensHere : ℕ) (gasEstimate : Except String ℕ) :
    Except String RebalanceOutcome × List RebalanceAction :=
  if version = 1 then
    if 0 < tokensHere then
      match gasEstimate with
      | .ok g => (.ok (.gas g), [.readTokensHere, .estimateRebalanceGas])
      | .error _ => (.ok .cannot, [.readTokensHere, .estimateRebalanceGas])
    else (.ok .cannot, [.readTokensHere])
  else (.ok .cannot, [])

/-- Truthiness of the resolved `canRebalance` value under JavaScript rules:
`false` and the number 0 are falsy, a nonzero gas estimate is truthy. -/
def rebalanceTruthy : Except String RebalanceOutcome → Bool
  | .ok (.gas g) => decide (g ≠ 0)
  | _ => false

/-! ### Claimable rewards (`getPoolRewardsContract` and `getClaimableVsp`, lines 491-528) -/

/-- The zero address. -/
def ZERO_ADDRESS : String := "0x0000000000000000000000000000000000000000"

/-- Embeds `getPoolRewardsContract`: instantiating a rewards contract at the
zero address throws. -/
def getPoolRewardsContract (address : String) : Except String String :=
  if address = ZERO_ADDRESS then .error "No rewards contract found" else .ok address

/-- Embeds `getClaimableVsp`: resolve the rewards contract address,
instantiate the contract, read the claimable balance and the reward token,
return the balance when the token is the VSP address and `"0"` otherwise; a
final catch maps every failure along the chain to `"0"`.  The remote reads
are passed in as the `Except` values their calls produced. -/
def getClaimableVsp (vspAddress : String) (rewardsAddress : Except String String)
    (claimable rewardToken : Except String String) : Except String String :=
  match rewardsAddress.bind fun addr =>
      (getPoolRewardsContract addr).bind fun _ =>
        claimable.bind fun balance =>
          rewardToken.bind fun token =>
            Except.ok (if token = vspAddress then balance else "0") with
  | .error _ => .ok "0"
  | .ok v => .ok v

/-! ### Contract resolution (`getContracts`, `src/src/contracts.js` lines 11-82) -/

/-- Controller metadata entry (name, network id, address). -/
structure ControllerMeta where
  name : String
  chainId : ℕ
  address : String
deriving DecidableEq

/-- Pool metadata entry. -/
structure PoolMeta where
  name : String
  address : String
  asset : String
  chainId : ℕ
deriving DecidableEq

/-- Token metadata entry. -/
structure TokenMeta where
  symbol : String
  address : String
  chainId : ℕ
deriving DecidableEq

/-- The metadata collaborator: controllers, pools, and extra tokens. -/
structure Metadata where
  controllers : List ControllerMeta
  pools : List PoolMeta
  tokens : List TokenMeta
deriving DecidableEq

/-- The resolved contract handles `getContracts` returns: asset contracts
(symbol and address), the two controller contract addresses, pool contracts
(address and name), and the matching pool metadata list. -/
structure Contracts where
  assetContracts : List (String × String)
  collateralManagerAddress : String
  controllerAddress : String
  poolContracts : List (String × String)
  pools : List PoolMeta
deriving DecidableEq

/-- Embeds `getContracts`: remaps chain id 1337 to 1, filters controllers and
pools by the resolved id, instantiates the collateral manager and controller
(a missing entry throws a `TypeError` on the `.address` access), logs — only
— when zero pools match, then builds pool and asset contract handles; a pool
asset absent from the augmented token list throws a `TypeError` on
destructuring. -/
def getContracts (chainId : ℕ) (tokenList : List TokenMeta) (md : Metadata) :
    Except String Contracts :=
  let id := if chainId = 1337 then 1 else chainId
  let controllers := md.controllers.filter (fun c => c.chainId == id)
  match controllers.find? (fun c => c.name == "collateralManager") with
  | none => .error "TypeError"
  | some cm =>
    match controllers.find? (fun c => c.name == "controller") with
    | none => .error "TypeError"
    | some ctrl =>
      let pools := md.pools.filter (fun p => p.chainId == id)
      let poolContracts := pools.map (fun p => (p.address, p.name))
      let augmented := (tokenList ++ md.tokens).filter (fun t => t.chainId == id)
      match ((pools.map (fun p => p.asset)).filter (fun a => a != "ETH")).mapM
          (fun a =>
            match augmented.find? (fun t => t.symbol == a && t.chainId == id) with
            | some t => Except.ok (t.symbol, t.address)
            | none => Except.error "TypeError") with
      | .error e => .error e
      | .ok assetContracts =>
        .ok { assetContracts := assetContracts,
              collateralManagerAddress := cm.address,
              controllerAddress := ctrl.address,
              poolContracts := poolContracts,
              pools := pools }

/-- Concrete metadata with controllers on mainnet and zero pools on any
network; exercises the zero-pool path of `getContracts`. -/
def mdNoPools : Metadata :=
  { controllers := [{ name := "collateralManager", chainId := 1, address := "0xCM" },
                    { name := "controller", chainId := 1, address := "0xCT" }],
    pools := [],
    tokens := [] }

/-! ## Helper lemmas for the unit converter -/

theorem natDigitsAux_eq (fuel : ℕ) : ∀ n, n ≤ fuel → natDigitsAux fuel n = Nat.digits 10 n := by
  induction fuel with
  | zero =>
    intro n hn
    interval_cases n
    simp [natDigitsAux]
  | succ fuel ih =>
    intro n hn
    match n with
    | 0 => simp [natDigitsAux]
    | m + 1 =>
      have hdiv : (m + 1) / 10 ≤ fuel := by
        have h1 : (m + 1) / 10 < m + 1 := Nat.div_lt_self (Nat.succ_pos m) (by norm_num)
        omega
      simp only [natDigitsAux]
      rw [ih _ hdiv, ← Nat.digits_def' (by norm_num : (1:ℕ) < 10) (Nat.succ_pos m)]

theorem natDigitChars_eq (n : ℕ) :
    natDigitChars n = (Nat.digits 10 n).reverse.map digitChar := by
  unfold natDigitChars
  rw [natDigitsAux_eq n n le_rfl]

theorem digitVal_lt_ten {c : Char} (hc : isDigitChar c = true) : digitVal c < 10 := by
  simp only [isDigitChar, Bool.and_eq_true, decide_eq_true_eq] at hc
  unfold digitVal
  omega

theorem digitChar_digitVal {c : Char} (hc : isDigitChar c = true) : digitChar (digitVal c) = c := by
  simp only [isDigitChar, Bool.and_eq_true, decide_eq_true_eq] at hc
  unfold digitChar digitVal
  rw [Nat.sub_add_cancel hc.1]
  exact Char.ofNat_toNat c

theorem digitVal_digitChar {d : ℕ} (hd : d < 10) : digitVal (digitChar d) = d := by
  interval_cases d <;> decide

theorem isDigitChar_digitChar {d : ℕ} (hd : d < 10) : isDigitChar (digitChar d) = true := by
  interval_cases d <;> decide

theorem digitChar_zero : digitChar 0 = '0' := by decide

theorem charsToNat_concat (g : List Char) (c : Char) :
    charsToNat (g ++ [c]) = 10 * charsToNat g + digitVal c := by
  unfold charsToNat
  rw [List.reverse_append]
  simp [Nat.ofDigits_cons]
  omega

theorem charsToNat_lt (l : List Char) (hl : l.all isDigitChar = true) :
    charsToNat l < 10 ^ l.length := by
  rw [List.all_eq_true] at hl
  unfold charsToNat
  have h := Nat.ofDigits_lt_base_pow_length (b := 10) (l := l.reverse.map digitVal)
    (by norm_num) ?_
  · simpa using h
  · intro x hx
    obtain ⟨c, hc, rfl⟩ := List.mem_map.mp hx
    exact digitVal_lt_ten (hl c (List.mem_reverse.mp hc))

theorem charsToNat_natDigitChars (n : ℕ) : charsToNat (natDigitChars n) = n := by
  rw [natDigitChars_eq]
  unfold charsToNat
  rw [List.map_reverse, List.map_map]
  have h : List.map (digitVal ∘ digitChar) (Nat.digits 10 n).reverse
      = (Nat.digits 10 n).reverse := by
    refine (List.map_congr_left ?_).trans (List.map_id _)
    intro d hd
    exact digitVal_digitChar (Nat.digits_lt_base (by norm_num) (List.mem_reverse.mp hd))
  rw [h, List.reverse_reverse]
  exact Nat.ofDigits_digits 10 n

theorem natDigitChars_all (n : ℕ) : (natDigitChars n).all isDigitChar = true := by
  rw [natDigitChars_eq, List.all_eq_true]
  intro c hc
  obtain ⟨d, hd, rfl⟩ := List.mem_map.mp hc
  exact isDigitChar_digitChar (Nat.digits_lt_base (by norm_num) (List.mem_reverse.mp hd))

theorem natDigitChars_ne_nil {n : ℕ} (hn : n ≠ 0) : natDigitChars n ≠ [] := by
  rw [natDigitChars_eq]
  simp [Nat.digits_ne_nil_iff_ne_zero.mpr hn]

theorem natToString_toList (n : ℕ) :
    (natToString n).toList = if n = 0 then ['0'] else natDigitChars n := by
  unfold natToString
  split <;> rfl

theorem natToString_parses (n : ℕ) :
    ((!(natToString n).toList.isEmpty && (natToString n).toList.all isDigitChar) = true)
      ∧ charsToNat (natToString n).toList = n := by
  rw [natToString_toList]
  by_cases hn : n = 0
  · subst hn
    exact ⟨by decide, by decide⟩
  · simp only [hn, if_false, Bool.and_eq_true, Bool.not_eq_true']
    refine ⟨⟨?_, natDigitChars_all n⟩, charsToNat_natDigitChars n⟩
    simpa [List.isEmpty_iff] using natDigitChars_ne_nil hn

theorem natToString_canonicalInt (i : List Char) (hi : canonicalIntChars i = true) :
    natToString (charsToNat i) = String.mk i := by
  simp only [canonicalIntChars, Bool.and_eq_true, Bool.or_eq_true, Bool.not_eq_true',
    beq_iff_eq, bne_iff_ne, ne_eq] at hi
  obtain ⟨⟨hne, hdig⟩, hlead⟩ := hi
  rw [List.all_eq_true] at hdig
  rcases hlead with h0 | hh
  · subst h0
    rfl
  · match i, hne with
    | c :: rest, _ =>
      simp only [List.headD_cons] at hh
      have hc : isDigitChar c = true := hdig c (List.mem_cons_self c rest)
      have hvc : digitVal c ≠ 0 := by
        intro h
        exact hh (by rw [← digitChar_digitVal hc, h, digitChar_zero])
      have hdigits : Nat.digits 10 (charsToNat (c :: rest))
          = (c :: rest).reverse.map digitVal := by
        apply Nat.digits_ofDigits 10 (by norm_num)
        · intro x hx
          obtain ⟨a, ha, rfl⟩ := List.mem_map.mp hx
          exact digitVal_lt_ten (hdig a (List.mem_reverse.mp ha))
        · intro h
          have h2 : (List.map digitVal (c :: rest).reverse).getLast? = some (digitVal c) := by
            rw [List.reverse_cons, List.map_append]
            simp
          have h3 := List.getLast?_eq_getLast (List.map digitVal (c :: rest).reverse) h
          rw [h3, Option.some_inj] at h2
          rw [h2]
          exact hvc
      have hn0 : charsToNat (c :: rest) ≠ 0 := by
        intro h
        have := hdigits
        rw [h] at this
        simp only [Nat.digits_zero] at this
        exact absurd this.symm (by simp)
      unfold natToString
      rw [if_neg hn0, natDigitChars_eq, hdigits]
      rw [← List.map_reverse, List.reverse_reverse, List.map_map]
      have h5 : List.map (digitChar ∘ digitVal) (c :: rest) = c :: rest := by
        refine (List.map_congr_left ?_).trans (List.map_id _)
        intro a ha
        exact digitChar_digitVal (hdig a ha)
      rw [h5]

theorem fracDigitChars_zero (d : ℕ) : fracDigitChars 0 d = List.replicate d '0' := by
  induction d with
  | zero => rfl
  | succ d ih =>
    simp only [fracDigitChars, Nat.zero_div, Nat.zero_mod, ih, digitChar_zero]
    rw [← List.replicate_succ']

theorem fracDigitChars_mul_pow (a m : ℕ) :
    ∀ k, fracDigitChars (a * 10 ^ k) (m + k) = fracDigitChars a m ++ List.replicate k '0' := by
  intro k
  induction k with
  | zero => simp
  | succ k ih =>
    have h1 : a * 10 ^ (k + 1) = a * 10 ^ k * 10 := by ring
    show fracDigitChars (a * 10 ^ (k + 1)) (m + k + 1) = _
    simp only [fracDigitChars, h1]
    rw [Nat.mul_div_cancel _ (by norm_num), Nat.mul_mod_left, ih, digitChar_zero]
    rw [List.append_assoc, ← List.replicate_succ']

theorem fracDigitChars_recover (f : List Char) (hf : f.all isDigitChar = true) :
    fracDigitChars (charsToNat f) f.length = f := by
  induction f using List.reverseRecOn with
  | nil => rfl
  | append_singleton g c ih =>
    simp only [List.all_append, List.all_cons, List.all_nil, Bool.and_true,
      Bool.and_eq_true] at hf
    obtain ⟨hg, hc⟩ := hf
    rw [charsToNat_concat]
    have hvc : digitVal c < 10 := digitVal_lt_ten hc
    have hlen : (g ++ [c]).length = g.length + 1 := by simp
    rw [hlen]
    simp only [fracDigitChars]
    rw [Nat.mul_add_div (by norm_num), Nat.div_eq_of_lt hvc, Nat.add_zero]
    rw [Nat.mul_add_mod, Nat.mod_eq_of_lt hvc]
    rw [ih hg, digitChar_digitVal hc]

theorem dropWhile_zeros_replicate (k : ℕ) (t : List Char) :
    List.dropWhile (fun c => c == '0') (List.replicate k '0' ++ t)
      = List.dropWhile (fun c => c == '0') t := by
  induction k with
  | zero => rfl
  | succ k ih => simp [List.replicate_succ, List.dropWhile_cons, ih]

theorem stripTrailingZeros_append_replicate (l : List Char) (k : ℕ) :
    stripTrailingZeros (l ++ List.replicate k '0') = stripTrailingZeros l := by
  unfold stripTrailingZeros
  rw [List.reverse_append, List.reverse_replicate, dropWhile_zeros_replicate]

theorem stripTrailingZeros_concat_ne (g : List Char) (c : Char) (hc : (c == '0') = false) :
    stripTrailingZeros (g ++ [c]) = g ++ [c] := by
  unfold stripTrailingZeros
  rw [List.reverse_append]
  simp [List.dropWhile_cons, hc]

theorem splitDot_ne_nil (l : List Char) : splitDot l ≠ [] := by
  cases l with
  | nil => simp [splitDot]
  | cons c rest =>
    simp only [splitDot]
    split
    · simp
    · cases h : splitDot rest <;> simp

theorem splitDot_single : ∀ (l i : List Char), splitDot l = [i] → l = i := by
  intro l
  induction l with
  | nil =>
    intro i h
    simp only [splitDot, List.cons.injEq] at h
    exact h.1
  | cons c rest ih =>
    intro i h
    by_cases hc : c = '.'
    · rw [splitDot, if_pos hc] at h
      simp only [List.cons.injEq] at h
      exact absurd h.2 (splitDot_ne_nil rest)
    · rw [splitDot, if_neg hc] at h
      cases hs : splitDot rest with
      | nil => exact absurd hs (splitDot_ne_nil rest)
      | cons hd tl =>
        rw [hs] at h
        simp only [List.cons.injEq] at h
        obtain ⟨hi, htl⟩ := h
        have : rest = hd := ih hd (by rw [hs, htl])
        rw [← hi, this]

theorem splitDot_pair : ∀ (l i f : List Char), splitDot l = [i, f] → l = i ++ '.' :: f := by
  intro l
  induction l with
  | nil =>
    intro i f h
    simp [splitDot] at h
  | cons c rest ih =>
    intro i f h
    by_cases hc : c = '.'
    · rw [splitDot, if_pos hc] at h
      simp only [List.cons.injEq] at h
      obtain ⟨hi, hrest⟩ := h
      rw [← hi, hc, splitDot_single rest f hrest]
      rfl
    · rw [splitDot, if_neg hc] at h
      cases hs : splitDot rest with
      | nil => exact absurd hs (splitDot_ne_nil rest)
      | cons hd tl =>
        rw [hs] at h
        simp only [List.cons.injEq] at h
        obtain ⟨hi, htl⟩ := h
        have : rest = hd ++ '.' :: f := ih hd f (by rw [hs, htl])
        rw [← hi, this]
        rfl

theorem string_mk_append (a b : List Char) : String.mk a ++ String.mk b = String.mk (a ++ b) := rfl

theorem stripTrailingZeros_replicate (d : ℕ) : stripTrailingZeros (List.replicate d '0') = [] := by
  have h := stripTrailingZeros_append_replicate [] d
  simpa using h

/-! ## Sanity checks of the unit converter against the repository's unit test shapes -/

example : toUnit "1.23" 3 = Except.ok "1230" := rfl

example : fromUnit "1230" 3 = Except.ok "1.23" := rfl

example : toUnit "500" 2 = Except.ok "50000" := rfl

example : fromUnit "50000" 2 = Except.ok "500" := rfl

example : toUnit "0.5" 0 = Except.ok "0" := rfl

example : toUnit "abc" 2 = Except.error "InvalidAmount" := rfl

/-! ## Claim C8 -/

/-- C8 counterexample: `"1.5"` is a valid non-negative decimal string and
`0 ∈ [0,24]`, yet `fromUnit(toUnit("1.5", 0), 0)` is `"1"`, not `"1.5"`:
`toUnit` truncates the fractional digits the decimals budget cannot hold, so
the claimed round-trip fails as stated. -/
theorem toUnit_fromUnit_not_roundtrip :
    (parseDec ("1.5".toList)).isSome = true
    ∧ (toUnit "1.5" 0).bind (fun y => fromUnit y 0) = Except.ok "1"
    ∧ ("1" : String) ≠ "1.5" :=
  ⟨rfl, rfl, by decide⟩

/-- C8 (amended): for every decimals value `d` in `[0,24]` and every canonical
non-negative decimal string `x` whose fractional part fits in `d` digits (no
leading zeros in the integer part, no trailing fractional zeros — exactly the
strings `fromUnit` itself outputs at `d` decimals), converting to base units
and back is the identity: `fromUnit(toUnit(x, d), d) = x`. -/
theorem toUnit_fromUnit_roundtrip (x : String) (d : ℕ) (hd : d ≤ 24)
    (hx : canonicalDec x d = true) :
    (toUnit x d).bind (fun y => fromUnit y d) = Except.ok x := by
  obtain ⟨data⟩ := x
  unfold canonicalDec at hx
  split at hx
  case h_3 => exact absurd hx (by simp)
  case h_1 i heq =>
    have hτ : (String.mk data).toList = data := rfl
    rw [hτ] at heq
    have hci : canonicalIntChars i = true := hx
    simp only [canonicalIntChars, Bool.and_eq_true, Bool.not_eq_true'] at hx
    obtain ⟨⟨hne, hdig⟩, _⟩ := hx
    have hdata : data = i := splitDot_single data i heq
    have hparse : parseDec data = some (charsToNat i, 0) := by
      unfold parseDec
      rw [heq]
      simp [hne, hdig]
    simp only [toUnit, hτ, hparse]
    have harith : charsToNat i * 10 ^ d / 10 ^ 0 = charsToNat i * 10 ^ d := by
      simp
    rw [harith]
    set m := charsToNat i * 10 ^ d with hm
    obtain ⟨hcond, hval⟩ := natToString_parses m
    simp only [Except.bind, fromUnit, hcond, if_pos, hval]
    have hip : m / 10 ^ d = charsToNat i := Nat.mul_div_cancel _ (pow_pos (by norm_num) d)
    have hfp : m % 10 ^ d = 0 := Nat.mul_mod_left _ _
    simp only [renderDec, hip, hfp, fracDigitChars_zero, stripTrailingZeros_replicate,
      List.isEmpty_nil, if_pos]
    rw [natToString_canonicalInt i hci, hdata]
  case h_2 i f heq =>
    have hτ : (String.mk data).toList = data := rfl
    rw [hτ] at heq
    simp only [Bool.and_eq_true, Bool.not_eq_true', bne_iff_ne, ne_eq,
      decide_eq_true_eq] at hx
    obtain ⟨⟨⟨⟨hci, hfne⟩, hfdig⟩, hlast⟩, hlen⟩ := hx
    have hine : i.isEmpty = false ∧ i.all isDigitChar = true := by
      simp only [canonicalIntChars, Bool.and_eq_true, Bool.not_eq_true'] at hci
      exact ⟨hci.1.1, hci.1.2⟩
    have hdata : data = i ++ '.' :: f := splitDot_pair data i f heq
    set F := f.length with hF
    set ci := charsToNat i with hcidef
    set cf := charsToNat f with hcfdef
    have hparse : parseDec data = some (ci * 10 ^ F + cf, F) := by
      unfold parseDec
      rw [heq]
      simp [hine.1, hine.2, hfdig, hfne]
    simp only [toUnit, hτ, hparse]
    have hpow : (10 : ℕ) ^ F * 10 ^ (d - F) = 10 ^ d := by
      rw [← pow_add]
      congr 1
      omega
    have harith : (ci * 10 ^ F + cf) * 10 ^ d / 10 ^ F
        = ci * 10 ^ d + cf * 10 ^ (d - F) := by
      have h1 : (ci * 10 ^ F + cf) * 10 ^ d
          = ((ci * 10 ^ d + cf * 10 ^ (d - F))) * 10 ^ F := by
        calc (ci * 10 ^ F + cf) * 10 ^ d
            = (ci * 10 ^ F + cf) * (10 ^ F * 10 ^ (d - F)) * 10 ^ F / 10 ^ F := by
              rw [Nat.mul_div_cancel _ (pow_pos (by norm_num) F), hpow]
          _ = ((ci * (10 ^ F * 10 ^ (d - F)) + cf * 10 ^ (d - F))) * 10 ^ F := by
              rw [Nat.mul_div_cancel _ (pow_pos (by norm_num) F)]
              ring
          _ = ((ci * 10 ^ d + cf * 10 ^ (d - F))) * 10 ^ F := by rw [hpow]
      rw [h1, Nat.mul_div_cancel _ (pow_pos (by norm_num) F)]
    rw [harith]
    set m := ci * 10 ^ d + cf * 10 ^ (d - F) with hm
    obtain ⟨hcond, hval⟩ := natToString_parses m
    simp only [Except.bind, fromUnit, hcond, if_pos, hval]
    have hcf_lt : cf < 10 ^ F := charsToNat_lt f hfdig
    have hr_lt : cf * 10 ^ (d - F) < 10 ^ d := by
      calc cf * 10 ^ (d - F) < 10 ^ F * 10 ^ (d - F) :=
            mul_lt_mul_of_pos_right hcf_lt (pow_pos (by norm_num) _)
        _ = 10 ^ d := hpow
    have hip : m / 10 ^ d = ci := by
      rw [hm, Nat.mul_comm ci, Nat.mul_add_div (pow_pos (by norm_num) d),
        Nat.div_eq_of_lt hr_lt, Nat.add_zero]
    have hfp : m % 10 ^ d = cf * 10 ^ (d - F) := by
      rw [hm, Nat.mul_comm ci, Nat.mul_add_mod, Nat.mod_eq_of_lt hr_lt]
    have hsplit : fracDigitChars (cf * 10 ^ (d - F)) d
        = fracDigitChars cf F ++ List.replicate (d - F) '0' := by
      have h2 := fracDigitChars_mul_pow cf F (d - F)
      have h3 : F + (d - F) = d := by omega
      rw [h3] at h2
      exact h2
    have hrecover : fracDigitChars cf F = f := fracDigitChars_recover f hfdig
    obtain hf0 | ⟨g, c, hgc⟩ := List.eq_nil_or_concat f
    · rw [hf0] at hfne
      simp at hfne
    rw [List.concat_eq_append] at hgc
    have hc0 : (c == '0') = false := by
      rw [hgc, List.getLastD_concat] at hlast
      simpa using hlast
    have hstrip : stripTrailingZeros (fracDigitChars (cf * 10 ^ (d - F)) d) = f := by
      rw [hsplit, stripTrailingZeros_append_replicate, hrecover, hgc,
        stripTrailingZeros_concat_ne g c hc0]
    have hfne2 : f.isEmpty = false := hfne
    simp only [renderDec, hip, hfp, hstrip, hfne2, Bool.false_eq_true, if_false]
    rw [natToString_canonicalInt i hci, hdata]
    congr 1
    show String.mk i ++ String.mk ['.'] ++ String.mk f = String.mk (i ++ '.' :: f)
    rw [string_mk_append, string_mk_append]
    congr 1
    simp

/-- Witness for the amended C8 round-trip at the canonical input
`x = "0.1"`, `d = 1`. -/
theorem toUnit_fromUnit_roundtrip_witness :
    (1 ≤ 24 ∧ canonicalDec "0.1" 1 = true)
    ∧ (toUnit "0.1" 1).bind (fun y => fromUnit y 1) = Except.ok "0.1" :=
  ⟨⟨by decide, by decide⟩, toUnit_fromUnit_roundtrip "0.1" 1 (by decide) (by decide)⟩

/-! ## Claim C1 -/

theorem sweepDust_limit_iff (t b : ℕ) (hb : 0 < b) :
    (defaultDustLimit < (t : ℚ) / (b : ℚ)) ↔ 999 * b < 1000 * t := by
  unfold defaultDustLimit
  rw [div_lt_div_iff₀ (by norm_num : (0 : ℚ) < 1000) (by exact_mod_cast hb : (0 : ℚ) < (b : ℚ))]
  rw [mul_comm (t : ℚ) 1000]
  constructor <;> intro h <;> exact_mod_cast h

/-- C1: the pool-token amount a withdraw invocation actually sends is the
dust-swept amount — when the converted token amount exceeds the fraction
0.999 of the caller's full balance (equivalently `999 * balance <
1000 * tokenAmount`), the full balance is withdrawn, and otherwise the
converted amount is sent unchanged; in particular a request equal to 99.95%
of the balance (0.9995 · 10^18 of a 10^18 balance) resolves to the full
balance. -/
theorem withdraw_sweeps_dust (amount tokenValue balance : ℕ) (hb : 0 < balance) :
    (withdrawSentAmount amount tokenValue balance =
      if 999 * balance < 1000 * withdrawTokenAmount amount tokenValue then balance
      else withdrawTokenAmount amount tokenValue)
    ∧ sweepDust (9995 * 10 ^ 14) (10 ^ 18) defaultDustLimit = 10 ^ 18 := by
  constructor
  · unfold withdrawSentAmount sweepDust
    rw [if_congr (sweepDust_limit_iff _ _ hb) rfl rfl]
  · unfold sweepDust
    rw [if_pos]
    rw [sweepDust_limit_iff _ _ (by norm_num : 0 < 10 ^ 18)]
    norm_num

/-- Witness for C1 at a concrete balance. -/
theorem withdraw_sweeps_dust_witness :
    0 < 10 ^ 18
    ∧ ((withdrawSentAmount 2 1 (10 ^ 18) =
        if 999 * 10 ^ 18 < 1000 * withdrawTokenAmount 2 1 then 10 ^ 18
        else withdrawTokenAmount 2 1)
      ∧ sweepDust (9995 * 10 ^ 14) (10 ^ 18) defaultDustLimit = 10 ^ 18) :=
  ⟨by norm_num, withdraw_sweeps_dust 2 1 (10 ^ 18) (by norm_num)⟩

/-! ## Claim C2 -/

/-- C2: the step list a deposit invocation builds contains an approve step
exactly when the asset is an ERC-20 token and the allowance is strictly below
the requested amount; it always ends with exactly one deposit step, so its
length is 2 in the approval case and 1 otherwise, and a native-asset deposit
never contains an approve step. -/
theorem deposit_step_list (isToken : Bool) (poolAddress : String) (allowance amount : ℕ) :
    ((depositTxs isToken poolAddress allowance amount).filter isApproveStep).length
        = (if isToken = true ∧ allowance < amount then 1 else 0)
    ∧ ((depositTxs isToken poolAddress allowance amount).filter isDepositStep).length = 1
    ∧ (depositTxs isToken poolAddress allowance amount).getLast?
        = some (depositStep isToken amount)
    ∧ (depositTxs isToken poolAddress allowance amount).length
        = (if isToken = true ∧ allowance < amount then 2 else 1)
    ∧ ((depositTxs false poolAddress allowance amount).filter isApproveStep).length = 0 := by
  cases isToken <;> by_cases hal : allowance < amount <;>
    simp [depositTxs, isApprovalNeeded, approveStep, depositStep, isApproveStep,
      isDepositStep, hal, List.getLast?]

/-! ## Claim C3 -/

/-- C3: the proxy method call is two-phase — `estimateGas` signs the permit
(one signing action), records the fresh signature, and builds the call from
the deadline fixed at proxy creation plus that signature; a subsequent `send`
rebuilds exactly the same call (same recorded signature, same deadline) with
no signing action and leaves the closure state unchanged, and `send` never
performs a signing action from any state. -/
theorem proxy_two_phase (nowSeconds : ℕ) (sig : PermitSignature) (st : ProxyState) :
    (proxyEstimateGas (createProxyMethodCall nowSeconds) sig).2.1
        = { deadline := nowSeconds + 900, signature := some sig }
    ∧ (proxyEstimateGas st sig).1.recordedSignature = some sig
    ∧ (proxyEstimateGas st sig).2.2 = [ProxyAction.permitSigned]
    ∧ proxySend (proxyEstimateGas st sig).1
        = ((proxyEstimateGas st sig).1,
          { deadline := st.deadline, signature := some sig }, [])
    ∧ (proxySend (proxyEstimateGas st sig).1).2.1 = (proxyEstimateGas st sig).2.1
    ∧ (proxySend st).2.2 = ([] : List ProxyAction) :=
  ⟨rfl, rfl, rfl, rfl, rfl, rfl⟩

/-! ## Claim C4 -/

theorem toUnit_one (d : ℕ) : toUnit "1" d = Except.ok (natToString (10 ^ d)) := by
  have hparse : parseDec ("1".toList) = some (1, 0) := rfl
  unfold toUnit
  rw [hparse]
  simp

/-- C4: `getTokenValue` returns one asset unit in base units
(`10 ^ assetDecimals`, the bootstrap price) when the pool's total supply is
zero, and otherwise the total value divided by the total supply scaled to the
18-decimal pool-token precision. -/
theorem tokenValue_spec (totalValue assetDecimals : ℕ) :
    getTokenValue 0 totalValue assetDecimals = Except.ok (natToString (10 ^ assetDecimals))
    ∧ ∀ totalSupply, 0 < totalSupply →
        getTokenValue totalSupply totalValue assetDecimals
          = Except.ok (natToString (totalValue * 10 ^ 18 / totalSupply)) := by
  constructor
  · unfold getTokenValue
    rw [if_neg (lt_irrefl 0)]
    exact toUnit_one assetDecimals
  · intro ts hts
    unfold getTokenValue
    rw [if_pos hts]

/-- Witness for C4 at a concrete positive total supply. -/
theorem tokenValue_spec_witness :
    0 < 2
    ∧ getTokenValue 2 6 4 = Except.ok (natToString (6 * 10 ^ 18 / 2)) :=
  ⟨by decide, (tokenValue_spec 6 4).2 2 (by decide)⟩

/-! ## Claim C5 -/

/-- C5 counterexample: for a pool of version 3 the claim's universal
"never fails" is false — when the strategies' total-value read fails, the
whole `getInterestEarned` read rejects with that error instead of degrading
to zero (the fallback chain exists only in the version-1 branch). -/
theorem interestEarned_v3_can_fail :
    getInterestEarned 3 (.ok "1") (.ok "1") (.error "call failed") (.ok 7)
        = Except.error "call failed"
    ∧ (getInterestEarned 3 (.ok "1") (.ok "1") (.error "call failed") (.ok 7)).isOk
        = false :=
  ⟨rfl, rfl⟩

/-- C5 (amended): for every version-1 pool, `getInterestEarned` never fails —
primary-strategy failure falls back to the legacy computation, a further
failure yields `"0"`, an empty result is normalized to `"0"`, and each
fallback step swallows its own error.  (For pools of other versions the read
is the strategies' total value minus the total debt and failures there
propagate.) -/
theorem interestEarned_v1_never_fails (primary legacy : Except String String)
    (stv td : Except String ℤ) :
    (getInterestEarned 1 primary legacy stv td).isOk = true
    ∧ (∀ v, primary = .ok v →
        getInterestEarned 1 primary legacy stv td = .ok (normalizeInterest v))
    ∧ (∀ e v, primary = .error e → legacy = .ok v →
        getInterestEarned 1 primary legacy stv td = .ok (normalizeInterest v))
    ∧ (∀ e1 e2, primary = .error e1 → legacy = .error e2 →
        getInterestEarned 1 primary legacy stv td = .ok "0")
    ∧ normalizeInterest "" = "0" := by
  refine ⟨?_, ?_, ?_, ?_, rfl⟩
  · cases primary <;> cases legacy <;> rfl
  · rintro v rfl
    rfl
  · rintro e v rfl rfl
    rfl
  · rintro e1 e2 rfl rfl
    rfl

/-- Witness for the amended C5: primary failure plus successful legacy read. -/
theorem interestEarned_v1_never_fails_witness :
    ((Except.error "strategy reverted" : Except String String) = .error "strategy reverted"
      ∧ (Except.ok "42" : Except String String) = .ok "42")
    ∧ getInterestEarned 1 (.error "strategy reverted") (.ok "42") (.ok 0) (.ok 0)
        = .ok (normalizeInterest "42") :=
  ⟨⟨rfl, rfl⟩,
    (interestEarned_v1_never_fails (.error "strategy reverted") (.ok "42")
        (.ok 0) (.ok 0)).2.2.1 "strategy reverted" "42" rfl rfl⟩

/-! ## Claim C6 -/

/-- C6: `canRebalance` yields a truthy result only when the pool holds a
non-zero uninvested balance and the gas estimation succeeded; and whenever
the gas estimation throws, `canRebalance` resolves to `false` (a value, not a
rejection). -/
theorem canRebalance_spec (version tokensHere : ℕ) (gasEstimate : Except String ℕ) :
    (rebalanceTruthy (canRebalance version tokensHere gasEstimate).1 = true →
      0 < tokensHere ∧ gasEstimate.isOk = true)
    ∧ (∀ e, gasEstimate = .error e →
        (canRebalance version tokensHere gasEstimate).1 = Except.ok RebalanceOutcome.cannot) := by
  constructor
  · intro ht
    by_cases hv : version = 1
    · subst hv
      by_cases h0 : 0 < tokensHere
      · cases gasEstimate with
        | ok g => exact ⟨h0, rfl⟩
        | error e => simp [canRebalance, h0, rebalanceTruthy] at ht
      · simp [canRebalance, h0, rebalanceTruthy] at ht
    · simp [canRebalance, hv, rebalanceTruthy] at ht
  · rintro e rfl
    by_cases hv : version = 1
    · subst hv
      by_cases h0 : 0 < tokensHere <;> simp [canRebalance, h0]
    · simp [canRebalance, hv]

/-- Witness for C6: a v1 pool with idle balance whose gas estimation throws
resolves to `false`. -/
theorem canRebalance_spec_witness :
    ((Except.error "execution reverted" : Except String ℕ) = .error "execution reverted")
    ∧ (canRebalance 1 5 (.error "execution reverted")).1 = Except.ok RebalanceOutcome.cannot :=
  ⟨rfl, (canRebalance_spec 1 5 (.error "execution reverted")).2 "execution reverted" rfl⟩

/-! ## Claim C10 -/

/-- C10: for every pool version other than 1, `canRebalance` resolves to
`false` unconditionally — regardless of the uninvested balance and the gas
estimation outcome — and performs no on-chain interaction at all (it neither
reads `tokensHere` nor estimates gas, as the empty action list shows). -/
theorem canRebalance_nonV1 (version tokensHere : ℕ) (gasEstimate : Except String ℕ)
    (h : version ≠ 1) :
    canRebalance version tokensHere gasEstimate
      = (Except.ok RebalanceOutcome.cannot, ([] : List RebalanceAction)) := by
  simp [canRebalance, h]

/-- Witness for C10 at version 3. -/
theorem canRebalance_nonV1_witness :
    (3 : ℕ) ≠ 1
    ∧ canRebalance 3 (10 ^ 18) (.ok 825000)
        = (Except.ok RebalanceOutcome.cannot, ([] : List RebalanceAction)) :=
  ⟨by decide, canRebalance_nonV1 3 (10 ^ 18) (.ok 825000) (by decide)⟩

/-! ## Claim C7 -/

/-- C7: `getClaimableVsp` always resolves (never rejects); it resolves to
`"0"` when the rewards contract address is the zero address, when any
underlying call fails, or when the reward token differs from the VSP address,
and it returns the claimable balance exactly when the rewards contract exists
and its reward token matches. -/
theorem claimableVsp_spec (vspAddress : String)
    (rewardsAddress claimable rewardToken : Except String String) :
    (getClaimableVsp vspAddress rewardsAddress claimable rewardToken).isOk = true
    ∧ (rewardsAddress = .ok ZERO_ADDRESS →
        getClaimableVsp vspAddress rewardsAddress claimable rewardToken = .ok "0")
    ∧ (∀ e, rewardsAddress = .error e →
        getClaimableVsp vspAddress rewardsAddress claimable rewardToken = .ok "0")
    ∧ (∀ e, claimable = .error e →
        getClaimableVsp vspAddress rewardsAddress claimable rewardToken = .ok "0")
    ∧ (∀ e, rewardToken = .error e →
        getClaimableVsp vspAddress rewardsAddress claimable rewardToken = .ok "0")
    ∧ (∀ addr balance token, rewardsAddress = .ok addr → claimable = .ok balance →
        rewardToken = .ok token → token ≠ vspAddress →
        getClaimableVsp vspAddress rewardsAddress claimable rewardToken = .ok "0")
    ∧ (∀ addr balance, rewardsAddress = .ok addr → addr ≠ ZERO_ADDRESS →
        claimable = .ok balance → rewardToken = .ok vspAddress →
        getClaimableVsp vspAddress rewardsAddress claimable rewardToken = .ok balance) := by
  refine ⟨?_, ?_, ?_, ?_, ?_, ?_, ?_⟩
  · unfold getClaimableVsp
    split <;> rfl
  · rintro rfl
    rfl
  · rintro e rfl
    rfl
  · rintro e rfl
    cases rewardsAddress with
    | error e2 => rfl
    | ok addr =>
      by_cases haddr : addr = ZERO_ADDRESS <;>
        simp [getClaimableVsp, getPoolRewardsContract, haddr, Except.bind]
  · rintro e rfl
    cases rewardsAddress with
    | error e2 => rfl
    | ok addr =>
      cases claimable with
      | error e3 =>
        by_cases haddr : addr = ZERO_ADDRESS <;>
          simp [getClaimableVsp, getPoolRewardsContract, haddr, Except.bind]
      | ok balance =>
        by_cases haddr : addr = ZERO_ADDRESS <;>
          simp [getClaimableVsp, getPoolRewardsContract, haddr, Except.bind]
  · rintro addr balance token rfl rfl rfl hne
    by_cases haddr : addr = ZERO_ADDRESS <;>
      simp [getClaimableVsp, getPoolRewardsContract, haddr, hne, Except.bind]
  · rintro addr balance rfl haddr rfl rfl
    simp [getClaimableVsp, getPoolRewardsContract, haddr, Except.bind]

/-- Witness for C7: an existing rewards contract whose reward token does not
match the VSP token address yields `"0"`. -/
theorem claimableVsp_spec_witness :
    ((Except.ok "0xOTHER" : Except String String) = .ok "0xOTHER"
      ∧ ("0xOTHER" : String) ≠ "0xVSP")
    ∧ getClaimableVsp "0xVSP" (.ok "0xREWARDS") (.ok "123") (.ok "0xOTHER") = .ok "0" :=
  ⟨⟨rfl, by decide⟩,
    (claimableVsp_spec "0xVSP" (.ok "0xREWARDS") (.ok "123") (.ok "0xOTHER")).2.2.2.2.2.1
      "0xREWARDS" "123" "0xOTHER" rfl rfl rfl (by decide)⟩

/-! ## Claim C9 -/

/-- C9 counterexample: with controllers present for mainnet and zero pools
matching the resolved network id, `getContracts` resolves successfully with
an empty pool set — it does not fail with an `UnsupportedNetwork` error (no
such error exists in the code; the zero-pool case is only logged).  The
local-testnet id 1337 is remapped to 1, which is why the mainnet controllers
are found. -/
theorem getContracts_zero_pools_no_error :
    getContracts 1337 [] mdNoPools
        = Except.ok { assetContracts := [], collateralManagerAddress := "0xCM",
                      controllerAddress := "0xCT", poolContracts := [], pools := [] }
    ∧ (getContracts 1337 [] mdNoPools).isOk = true :=
  ⟨rfl, rfl⟩

/-- C9 (amended): when zero pools in the metadata match the resolved network
id (and the controller entries resolve), `getContracts` logs and resolves
successfully with an empty pool set rather than failing; and resolution
remaps the local-testnet chain id 1337 to mainnet id 1 before matching. -/
theorem getContracts_empty_pools (chainId : ℕ) (tl : List TokenMeta) (md : Metadata)
    (cm ctrl : ControllerMeta) :
    ((md.controllers.filter
          (fun c => c.chainId == (if chainId = 1337 then 1 else chainId))).find?
          (fun c => c.name == "collateralManager") = some cm →
      (md.controllers.filter
          (fun c => c.chainId == (if chainId = 1337 then 1 else chainId))).find?
          (fun c => c.name == "controller") = some ctrl →
      md.pools.filter (fun p => p.chainId == (if chainId = 1337 then 1 else chainId)) = [] →
      getContracts chainId tl md
        = Except.ok { assetContracts := [], collateralManagerAddress := cm.address,
                      controllerAddress := ctrl.address, poolContracts := [], pools := [] })
    ∧ getContracts 1337 tl md = getContracts 1 tl md := by
  constructor
  · intro hcm hctrl hpools
    simp only [getContracts]
    rw [hcm, hctrl, hpools]
    rfl
  · rfl

/-- Witness for the amended C9 at concrete metadata with zero pools. -/
theorem getContracts_empty_pools_witness :
    (mdNoPools.pools.filter (fun p => p.chainId == (if (1 : ℕ) = 1337 then 1 else 1)) = [])
    ∧ getContracts 1 [] mdNoPools
        = Except.ok { assetContracts := [], collateralManagerAddress := "0xCM",
                      controllerAddress := "0xCT", poolContracts := [], pools := [] } :=
  ⟨rfl, (getContracts_empty_pools 1 [] mdNoPools
      { name := "collateralManager", chainId := 1, address := "0xCM" }
      { name := "controller", chainId := 1, address := "0xCT" }).1 rfl rfl rfl⟩

end VesperLib
